import Mathlib

/-!
Shallow embedding of `src/src/main.rs` from grantmd/maelstrom-broadcast:
a single Maelstrom broadcast node.  The Rust program keeps a `Node` struct
(id, u128 message-id counter, node list, neighbor list, `HashSet<u128>` of
seen values) and a dispatch loop that reads one JSON envelope at a time,
mutates the node and emits reply / gossip envelopes.

Embedding choices:
* `u128` counters are `Nat` reduced modulo `2 ^ 128` at each increment,
  matching Rust release-mode wrapping arithmetic (`U128` below).
* `HashSet<u128>` becomes a duplicate-free `List Nat`; `insert` is the
  membership-guarded cons, whose "was it new" result the Rust code reads.
* `HashMap<String, Vec<String>>` (the topology payload) becomes an
  association list; the panicking index `body.topology[&node.id]` becomes
  an `Option`-valued lookup, and a `none` result makes the handler return
  `none` (the model of the Rust panic).
* stdout emission becomes the list of outbound envelopes returned by
  `handle`; the stdin loop becomes `run`, folding `handle` over a list of
  inbound envelopes.
-/

namespace Maelstrom

/-- Modulus of Rust's `u128` arithmetic. -/
def U128 : Nat := 2 ^ 128

/-- The `MessageBody` struct of `main.rs` (post-deserialization view:
serde `#[serde(default)]` fields already defaulted). -/
structure MessageBody where
  msg_type : String
  msg_id : Nat
  in_reply_to : Nat
  node_id : String
  node_ids : List String
  topology : List (String × List String)
  message : Nat
  messages : Option (List Nat)
deriving DecidableEq

/-- Rust `Default` for `MessageBody`: empty strings, zero ids, empty
containers, `None` messages. -/
def MessageBody.default : MessageBody :=
  { msg_type := "", msg_id := 0, in_reply_to := 0, node_id := "", node_ids := [],
    topology := [], message := 0, messages := none }

/-- The `Message` envelope struct of `main.rs`. -/
structure Message where
  src : String
  dest : String
  body : MessageBody
deriving DecidableEq

/-- The `Node` struct of `main.rs`. `messages` is the `HashSet<u128>` of
seen broadcast values, kept as a duplicate-free list. -/
structure Node where
  id : String
  msg_id : Nat
  node_ids : List String
  neighbors : List String
  messages : List Nat
deriving DecidableEq

/-- Rust `Node::new()` = `Default::default()`. -/
def Node.new : Node :=
  { id := "", msg_id := 0, node_ids := [], neighbors := [], messages := [] }

/-- Rust `Node::send`: bump the counter (u128 wrapping), stamp the body with the
new counter value, and emit an envelope from this node to `dest`. -/
def Node.send (n : Node) (dest : String) (body : MessageBody) : Node × Message :=
  ({ n with msg_id := (n.msg_id + 1) % U128 },
   { src := n.id, dest := dest, body := { body with msg_id := (n.msg_id + 1) % U128 } })

/-- Rust `Node::reply`: stamp `in_reply_to` with the request's `msg_id`, then
`send` to the request's source. -/
def Node.reply (n : Node) (request : Message) (rb : MessageBody) : Node × Message :=
  n.send request.src { rb with in_reply_to := request.body.msg_id }

/-- The neighbor loop of `Node::broadcast`: walk the neighbor list, skip
ourselves and the envelope's immediate sender, `send` the (cloned) body to
everyone else.  Threaded through the node because each `send` bumps the
counter. -/
def broadcastLoop (m : Message) : List String → Node → Node × List Message
  | [], n => (n, [])
  | nb :: rest, n =>
    if nb = n.id ∨ nb = m.src then broadcastLoop m rest n
    else
      let step := n.send nb m.body
      let next := broadcastLoop m rest step.1
      (next.1, step.2 :: next.2)

/-- Rust `Node::broadcast`: flood `m`'s body to every neighbor except self and
the envelope's sender. -/
def Node.broadcast (n : Node) (m : Message) : Node × List Message :=
  broadcastLoop m n.neighbors n

/-- The tail of each loop iteration in `main`: `if body.msg_id > 0 {
node.reply(msg, reply)?; }` — fire-and-forget inbound envelopes
(`msg_id` = 0) get no reply. -/
def finishReply (n : Node) (msg : Message) (rb : MessageBody) : Node × List Message :=
  if 0 < msg.body.msg_id then
    let r := n.reply msg rb
    (r.1, [r.2])
  else (n, [])

/-- The `HashMap` index `body.topology[&node.id]` as an `Option` lookup on
the association list. -/
def topoLookup (t : List (String × List String)) (k : String) : Option (List String) :=
  match t with
  | [] => none
  | p :: rest => if p.1 = k then some p.2 else topoLookup rest k

/-- One iteration of the dispatch loop in `main`, for one decoded inbound
envelope: match on `body.msg_type`, mutate the node, collect the outbound
envelopes (gossip floods first, then the conditional reply, in emission
order).  `none` models the Rust panic on a topology map missing this
node's id.  The `broadcast_ok` and unknown-type branches `continue`
without replying. -/
def handle (n : Node) (msg : Message) : Option (Node × List Message) :=
  if msg.body.msg_type = "init" then
    some (finishReply { n with id := msg.body.node_id, node_ids := msg.body.node_ids } msg
      { MessageBody.default with msg_type := "init_ok" })
  else if msg.body.msg_type = "broadcast" then
    let step :=
      if msg.body.message ∈ n.messages then (n, ([] : List Message))
      else Node.broadcast { n with messages := msg.body.message :: n.messages } msg
    let fin := finishReply step.1 msg { MessageBody.default with msg_type := "broadcast_ok" }
    some (fin.1, step.2 ++ fin.2)
  else if msg.body.msg_type = "read" then
    some (finishReply n msg
      { MessageBody.default with msg_type := "read_ok", messages := some n.messages })
  else if msg.body.msg_type = "topology" then
    match topoLookup msg.body.topology n.id with
    | none => none
    | some nbrs =>
      some (finishReply { n with neighbors := nbrs } msg
        { MessageBody.default with msg_type := "topology_ok" })
  else
    some (n, [])

/-- The stdin loop of `main` over a finite inbound trace, concatenating
the outbound envelopes in emission order; `none` models a panic at some
step. -/
def run : List Message → Node → Option (Node × List Message)
  | [], n => some (n, [])
  | m :: rest, n =>
    match handle n m with
    | none => none
    | some p =>
      match run rest p.1 with
      | none => none
      | some q => some (q.1, p.2 ++ q.2)

/-- The wire-level view of `MessageBody` before serde defaulting: fields
that may be absent in the JSON are `Option`-valued.  (`msg_id` carries no
`#[serde(default)]` in the source, so it is mandatory on inbound
envelopes.) -/
structure WireBody where
  msg_type : String
  msg_id : Nat
  in_reply_to : Nat
  node_id : String
  node_ids : List String
  topology : List (String × List String)
  message : Option Nat
  messages : Option (List Nat)
deriving DecidableEq

/-- The `is_zero` helper of `main.rs`, used by
`#[serde(skip_serializing_if = "is_zero")]` on `message`. -/
def is_zero (num : Nat) : Bool := num == 0

/-- Serde deserialization of a body: `#[serde(default)]` on `message`
turns an absent field into 0. -/
def deserializeBody (w : WireBody) : MessageBody :=
  { msg_type := w.msg_type, msg_id := w.msg_id, in_reply_to := w.in_reply_to,
    node_id := w.node_id, node_ids := w.node_ids, topology := w.topology,
    message := w.message.getD 0, messages := w.messages }

/-- What serde serialization emits for the `message` field: skipped
exactly when `is_zero` holds. -/
def serializeMessageField (b : MessageBody) : Option Nat :=
  if is_zero b.message then none else some b.message

/-- The per-send outbound id sequence: starting from counter value `c`,
`k` sends stamp ids `c+1, c+2, …, c+k` (absent u128 wraparound). -/
def idSeq : Nat → Nat → List Nat
  | _, 0 => []
  | c, k + 1 => (c + 1) :: idSeq (c + 1) k

/-! ### Concrete nodes and envelopes used to instantiate the theorems -/

/-- An initialized node (after Scenario A's `init`), before any topology. -/
def nodeInit : Node :=
  { id := "n1", msg_id := 0, node_ids := ["n1", "n2"], neighbors := [], messages := [] }

/-- An initialized node with one neighbor `n2` (Scenario B's setting). -/
def nodeB : Node :=
  { id := "n1", msg_id := 0, node_ids := ["n1", "n2"], neighbors := ["n2"], messages := [] }

/-- Scenario B's broadcast request from client `c1`, value 42, `msg_id` 2. -/
def bcastMsg : Message :=
  { src := "c1", dest := "n1",
    body := { MessageBody.default with msg_type := "broadcast", msg_id := 2, message := 42 } }

/-- The node state after `nodeB` handles `bcastMsg`. -/
def nodeAfterB : Node :=
  { id := "n1", msg_id := 2, node_ids := ["n1", "n2"], neighbors := ["n2"], messages := [42] }

/-- The two envelopes `nodeB` emits for `bcastMsg`: the gossip to `n2`,
then the `broadcast_ok` reply to `c1`. -/
def outsAfterB : List Message :=
  [{ src := "n1", dest := "n2",
     body := { msg_type := "broadcast", msg_id := 1, in_reply_to := 0, node_id := "",
               node_ids := [], topology := [], message := 42, messages := none } },
   { src := "n1", dest := "c1",
     body := { msg_type := "broadcast_ok", msg_id := 2, in_reply_to := 2, node_id := "",
               node_ids := [], topology := [], message := 0, messages := none } }]

/-- The node state after `nodeB` handles `bcastMsg` twice. -/
def nodeAfterB2 : Node :=
  { id := "n1", msg_id := 3, node_ids := ["n1", "n2"], neighbors := ["n2"], messages := [42] }

/-- The envelopes `nodeB` emits handling `bcastMsg` twice: the single gossip
and the first reply, then only a second `broadcast_ok` reply. -/
def outsAfterB2 : List Message :=
  outsAfterB ++
    [{ src := "n1", dest := "c1",
       body := { msg_type := "broadcast_ok", msg_id := 3, in_reply_to := 2, node_id := "",
                 node_ids := [], topology := [], message := 0, messages := none } }]

/-- A peer's `broadcast_ok` acknowledgment carrying a positive `msg_id`. -/
def ackMsg : Message :=
  { src := "c1", dest := "n1",
    body := { MessageBody.default with msg_type := "broadcast_ok", msg_id := 5 } }

/-- A topology envelope whose map has no entry for `n1` (Scenario E). -/
def topoMissingMsg : Message :=
  { src := "c1", dest := "n1",
    body := { MessageBody.default with
                msg_type := "topology"
                msg_id := 7
                topology := [("n2", ["n1"])] } }

/-- Scenario A's init envelope. -/
def initMsg1 : Message :=
  { src := "c1", dest := "n1",
    body := { MessageBody.default with
                msg_type := "init"
                msg_id := 1
                node_id := "n1"
                node_ids := ["n1", "n2"] } }

/-- A second init envelope naming a different node id. -/
def initMsg2 : Message :=
  { src := "c1", dest := "n2",
    body := { MessageBody.default with
                msg_type := "init"
                msg_id := 2
                node_id := "n2"
                node_ids := ["n1", "n2"] } }

/-- A read request from `c1` with `msg_id` 9. -/
def readMsg9 : Message :=
  { src := "c1", dest := "n1",
    body := { MessageBody.default with msg_type := "read", msg_id := 9 } }

/-- A fire-and-forget broadcast (`msg_id` 0) carrying value 7. -/
def fireMsg : Message :=
  { src := "c1", dest := "n1",
    body := { MessageBody.default with msg_type := "broadcast", msg_id := 0, message := 7 } }

/-- A wire-level broadcast body whose `message` field is absent, `msg_id` 3. -/
def wireNoMessage : WireBody :=
  { msg_type := "broadcast", msg_id := 3, in_reply_to := 0, node_id := "", node_ids := [],
    topology := [], message := none, messages := none }

/-- State of `Node.new` after handling `initMsg1` then `readMsg9`. -/
def nodeAfterIR : Node :=
  { id := "n1", msg_id := 2, node_ids := ["n1", "n2"], neighbors := [], messages := [] }

/-- The two replies emitted for `initMsg1` then `readMsg9`. -/
def outsAfterIR : List Message :=
  [{ src := "n1", dest := "c1",
     body := { msg_type := "init_ok", msg_id := 1, in_reply_to := 1, node_id := "",
               node_ids := [], topology := [], message := 0, messages := none } },
   { src := "n1", dest := "c1",
     body := { msg_type := "read_ok", msg_id := 2, in_reply_to := 9, node_id := "",
               node_ids := [], topology := [], message := 0, messages := some [] } }]

/-- State of `Node.new` after handling `initMsg1` alone. -/
def nodeAfterInit : Node :=
  { id := "n1", msg_id := 1, node_ids := ["n1", "n2"], neighbors := [], messages := [] }

/-- The single `init_ok` reply to `initMsg1`. -/
def outsAfterInit : List Message :=
  [{ src := "n1", dest := "c1",
     body := { msg_type := "init_ok", msg_id := 1, in_reply_to := 1, node_id := "",
               node_ids := [], topology := [], message := 0, messages := none } }]

/-- State of `nodeB` after handling the fire-and-forget broadcast `fireMsg`. -/
def nodeAfterFire : Node :=
  { id := "n1", msg_id := 1, node_ids := ["n1", "n2"], neighbors := ["n2"], messages := [7] }

/-- The gossip (and no reply) emitted for `fireMsg`. -/
def outsAfterFire : List Message :=
  [{ src := "n1", dest := "n2",
     body := { msg_type := "broadcast", msg_id := 1, in_reply_to := 0, node_id := "",
               node_ids := [], topology := [], message := 7, messages := none } }]

/-- State of `nodeB` after handling the deserialization of `wireNoMessage`. -/
def nodeAfterWire : Node :=
  { id := "n1", msg_id := 2, node_ids := ["n1", "n2"], neighbors := ["n2"], messages := [0] }

/-- The gossip and reply emitted for the deserialization of `wireNoMessage`. -/
def outsAfterWire : List Message :=
  [{ src := "n1", dest := "n2",
     body := { msg_type := "broadcast", msg_id := 1, in_reply_to := 0, node_id := "",
               node_ids := [], topology := [], message := 0, messages := none } },
   { src := "n1", dest := "c1",
     body := { msg_type := "broadcast_ok", msg_id := 2, in_reply_to := 3, node_id := "",
               node_ids := [], topology := [], message := 0, messages := none } }]

/-- State of `nodeAfterWire` after handling `readMsg9`. -/
def nodeAfterWireRead : Node :=
  { id := "n1", msg_id := 3, node_ids := ["n1", "n2"], neighbors := ["n2"], messages := [0] }

/-- The `read_ok` reply emitted by `nodeAfterWire` for `readMsg9`. -/
def outsAfterWireRead : List Message :=
  [{ src := "n1", dest := "c1",
     body := { msg_type := "read_ok", msg_id := 3, in_reply_to := 9, node_id := "",
               node_ids := [], topology := [], message := 0, messages := some [0] } }]

/-! ### Basic lemmas about the building blocks -/

theorem send_fst (n : Node) (d : String) (b : MessageBody) :
    (n.send d b).1 = { n with msg_id := (n.msg_id + 1) % U128 } := rfl

theorem send_snd (n : Node) (d : String) (b : MessageBody) :
    (n.send d b).2 =
      { src := n.id, dest := d, body := { b with msg_id := (n.msg_id + 1) % U128 } } := rfl

theorem finishReply_of_zero (n : Node) (msg : Message) (rb : MessageBody)
    (h : msg.body.msg_id = 0) : finishReply n msg rb = (n, []) := by
  simp [finishReply, h]

theorem finishReply_of_pos (n : Node) (msg : Message) (rb : MessageBody)
    (h : 0 < msg.body.msg_id) :
    finishReply n msg rb =
      ({ n with msg_id := (n.msg_id + 1) % U128 },
       [{ src := n.id, dest := msg.src,
          body := { rb with in_reply_to := msg.body.msg_id,
                            msg_id := (n.msg_id + 1) % U128 } }]) := by
  simp [finishReply, h, Node.reply, Node.send]

theorem finishReply_fst_id (n : Node) (msg : Message) (rb : MessageBody) :
    (finishReply n msg rb).1.id = n.id := by
  unfold finishReply Node.reply Node.send
  split <;> rfl

theorem finishReply_fst_messages (n : Node) (msg : Message) (rb : MessageBody) :
    (finishReply n msg rb).1.messages = n.messages := by
  unfold finishReply Node.reply Node.send
  split <;> rfl

theorem finishReply_fst_neighbors (n : Node) (msg : Message) (rb : MessageBody) :
    (finishReply n msg rb).1.neighbors = n.neighbors := by
  unfold finishReply Node.reply Node.send
  split <;> rfl

theorem finishReply_mem (n : Node) (msg : Message) (rb : MessageBody) (o : Message)
    (ho : o ∈ (finishReply n msg rb).2) :
    o.dest = msg.src ∧ o.body.in_reply_to = msg.body.msg_id ∧
      o.body.msg_type = rb.msg_type ∧ o.body.messages = rb.messages ∧
      o.body.message = rb.message := by
  unfold finishReply Node.reply Node.send at ho
  split at ho
  · simp only [List.mem_singleton] at ho
    subst ho
    exact ⟨rfl, rfl, rfl, rfl, rfl⟩
  · simp at ho

theorem broadcastLoop_fst_id (m : Message) (l : List String) :
    ∀ n : Node, (broadcastLoop m l n).1.id = n.id := by
  induction l with
  | nil => intro n; rfl
  | cons nb rest ih =>
    intro n
    by_cases h : nb = n.id ∨ nb = m.src
    · simp [broadcastLoop, h, ih]
    · simp [broadcastLoop, h, ih, Node.send]

theorem broadcastLoop_fst_messages (m : Message) (l : List String) :
    ∀ n : Node, (broadcastLoop m l n).1.messages = n.messages := by
  induction l with
  | nil => intro n; rfl
  | cons nb rest ih =>
    intro n
    by_cases h : nb = n.id ∨ nb = m.src
    · simp [broadcastLoop, h, ih]
    · simp [broadcastLoop, h, ih, Node.send]

theorem broadcastLoop_fst_neighbors (m : Message) (l : List String) :
    ∀ n : Node, (broadcastLoop m l n).1.neighbors = n.neighbors := by
  induction l with
  | nil => intro n; rfl
  | cons nb rest ih =>
    intro n
    by_cases h : nb = n.id ∨ nb = m.src
    · simp [broadcastLoop, h, ih]
    · simp [broadcastLoop, h, ih, Node.send]

theorem broadcastLoop_mem (m : Message) (l : List String) :
    ∀ (n : Node) (o : Message), o ∈ (broadcastLoop m l n).2 →
      o.dest ≠ n.id ∧ o.dest ≠ m.src ∧ o.dest ∈ l ∧
        o.body.msg_type = m.body.msg_type ∧
        o.body.in_reply_to = m.body.in_reply_to ∧
        o.body.message = m.body.message := by
  induction l with
  | nil => intro n o ho; simp [broadcastLoop] at ho
  | cons nb rest ih =>
    intro n o ho
    by_cases h : nb = n.id ∨ nb = m.src
    · rw [broadcastLoop, if_pos h] at ho
      rcases ih n o ho with ⟨h1, h2, h3, h4⟩
      exact ⟨h1, h2, List.mem_cons_of_mem _ h3, h4⟩
    · rw [broadcastLoop, if_neg h] at ho
      push_neg at h
      simp only [List.mem_cons] at ho
      rcases ho with ho | ho
      · subst ho
        refine ⟨h.1, h.2, List.mem_cons_self _ _, rfl, rfl, rfl⟩
      · have := ih ((n.send nb m.body).1) o ho
        rw [send_fst] at this
        rcases this with ⟨h1, h2, h3, h4⟩
        exact ⟨h1, h2, List.mem_cons_of_mem _ h3, h4⟩

theorem broadcast_fst_id (n : Node) (m : Message) : (n.broadcast m).1.id = n.id :=
  broadcastLoop_fst_id m n.neighbors n

theorem broadcast_fst_messages (n : Node) (m : Message) :
    (n.broadcast m).1.messages = n.messages :=
  broadcastLoop_fst_messages m n.neighbors n

theorem broadcast_fst_neighbors (n : Node) (m : Message) :
    (n.broadcast m).1.neighbors = n.neighbors :=
  broadcastLoop_fst_neighbors m n.neighbors n

theorem broadcast_mem (n : Node) (m : Message) (o : Message) (ho : o ∈ (n.broadcast m).2) :
    o.dest ≠ n.id ∧ o.dest ≠ m.src ∧ o.dest ∈ n.neighbors ∧
      o.body.msg_type = m.body.msg_type ∧
      o.body.in_reply_to = m.body.in_reply_to ∧
      o.body.message = m.body.message :=
  broadcastLoop_mem m n.neighbors n o ho

/-! ### Unfolding lemmas for each dispatch branch of `handle` -/

theorem handle_init (n : Node) (msg : Message) (h : msg.body.msg_type = "init") :
    handle n msg =
      some (finishReply { n with id := msg.body.node_id, node_ids := msg.body.node_ids } msg
        { MessageBody.default with msg_type := "init_ok" }) := by
  unfold handle
  rw [if_pos h]

theorem handle_broadcast_dup (n : Node) (msg : Message)
    (h : msg.body.msg_type = "broadcast") (hv : msg.body.message ∈ n.messages) :
    handle n msg =
      some ((finishReply n msg { MessageBody.default with msg_type := "broadcast_ok" }).1,
            (finishReply n msg { MessageBody.default with msg_type := "broadcast_ok" }).2) := by
  unfold handle
  rw [if_neg (by rw [h]; decide), if_pos h]
  simp only [if_pos hv, List.nil_append]

theorem handle_broadcast_fresh (n : Node) (msg : Message)
    (h : msg.body.msg_type = "broadcast") (hv : msg.body.message ∉ n.messages) :
    handle n msg =
      some ((finishReply
               (Node.broadcast { n with messages := msg.body.message :: n.messages } msg).1 msg
               { MessageBody.default with msg_type := "broadcast_ok" }).1,
            (Node.broadcast { n with messages := msg.body.message :: n.messages } msg).2 ++
              (finishReply
                (Node.broadcast { n with messages := msg.body.message :: n.messages } msg).1 msg
                { MessageBody.default with msg_type := "broadcast_ok" }).2) := by
  unfold handle
  rw [if_neg (by rw [h]; decide), if_pos h]
  simp only [if_neg hv]

theorem handle_read (n : Node) (msg : Message) (h : msg.body.msg_type = "read") :
    handle n msg =
      some (finishReply n msg
        { MessageBody.default with msg_type := "read_ok", messages := some n.messages }) := by
  unfold handle
  rw [if_neg (by rw [h]; decide), if_neg (by rw [h]; decide), if_pos h]

theorem handle_topology_found (n : Node) (msg : Message)
    (h : msg.body.msg_type = "topology") (nbrs : List String)
    (hl : topoLookup msg.body.topology n.id = some nbrs) :
    handle n msg =
      some (finishReply { n with neighbors := nbrs } msg
        { MessageBody.default with msg_type := "topology_ok" }) := by
  unfold handle
  rw [if_neg (by rw [h]; decide), if_neg (by rw [h]; decide), if_neg (by rw [h]; decide),
    if_pos h, hl]

theorem handle_topology_missing (n : Node) (msg : Message)
    (h : msg.body.msg_type = "topology")
    (hl : topoLookup msg.body.topology n.id = none) :
    handle n msg = none := by
  unfold handle
  rw [if_neg (by rw [h]; decide), if_neg (by rw [h]; decide), if_neg (by rw [h]; decide),
    if_pos h, hl]

theorem handle_other (n : Node) (msg : Message)
    (h1 : msg.body.msg_type ≠ "init") (h2 : msg.body.msg_type ≠ "broadcast")
    (h3 : msg.body.msg_type ≠ "read") (h4 : msg.body.msg_type ≠ "topology") :
    handle n msg = some (n, []) := by
  unfold handle
  rw [if_neg h1, if_neg h2, if_neg h3, if_neg h4]

/-! ### The outbound message-id sequence -/

theorem idSeq_zero (c : Nat) : idSeq c 0 = [] := rfl

theorem idSeq_succ (c k : Nat) : idSeq c (k + 1) = (c + 1) :: idSeq (c + 1) k := rfl

theorem idSeq_append (k1 : Nat) :
    ∀ (c : Nat) (k2 : Nat), idSeq c (k1 + k2) = idSeq c k1 ++ idSeq (c + k1) k2 := by
  induction k1 with
  | zero => intro c k2; simp [idSeq]
  | succ k ih =>
    intro c k2
    have : k + 1 + k2 = (k + k2) + 1 := by omega
    rw [this, idSeq_succ, idSeq_succ, ih (c + 1) k2]
    have : c + 1 + k = c + (k + 1) := by omega
    rw [this, List.cons_append]

theorem mem_idSeq (k : Nat) :
    ∀ (c x : Nat), x ∈ idSeq c k ↔ c < x ∧ x ≤ c + k := by
  induction k with
  | zero => intro c x; simp [idSeq]
  | succ k ih =>
    intro c x
    rw [idSeq_succ]
    simp only [List.mem_cons, ih (c + 1) x]
    omega

theorem idSeq_pairwise (k : Nat) :
    ∀ c : Nat, List.Pairwise (· < ·) (idSeq c k) := by
  induction k with
  | zero => intro c; simp [idSeq]
  | succ k ih =>
    intro c
    rw [idSeq_succ]
    refine List.Pairwise.cons ?_ (ih (c + 1))
    intro x hx
    rw [mem_idSeq] at hx
    omega

/-! ### Counter arithmetic: ids stamped on outbound envelopes -/

theorem pair_of_some {α β : Type} {x : α × β} {a : α} {b : β}
    (h : some x = some (a, b)) : a = x.1 ∧ b = x.2 := by
  injection h with h
  constructor <;> rw [h]

theorem finishReply_ids (n : Node) (msg : Message) (rb : MessageBody)
    (hb : n.msg_id + (finishReply n msg rb).2.length < U128) :
    (finishReply n msg rb).2.map (fun o => o.body.msg_id)
        = idSeq n.msg_id (finishReply n msg rb).2.length ∧
      (finishReply n msg rb).1.msg_id = n.msg_id + (finishReply n msg rb).2.length := by
  by_cases h : 0 < msg.body.msg_id
  · rw [finishReply_of_pos n msg rb h] at hb ⊢
    simp only [List.length_cons, List.length_nil, List.map_cons, List.map_nil] at hb ⊢
    have hlt : n.msg_id + 1 < U128 := by omega
    rw [Nat.mod_eq_of_lt hlt]
    exact ⟨rfl, rfl⟩
  · have h0 : msg.body.msg_id = 0 := by omega
    rw [finishReply_of_zero n msg rb h0]
    exact ⟨rfl, rfl⟩

theorem broadcastLoop_ids (m : Message) (l : List String) :
    ∀ n : Node, n.msg_id + (broadcastLoop m l n).2.length < U128 →
      ((broadcastLoop m l n).2.map (fun o => o.body.msg_id)
          = idSeq n.msg_id (broadcastLoop m l n).2.length ∧
        (broadcastLoop m l n).1.msg_id = n.msg_id + (broadcastLoop m l n).2.length) := by
  induction l with
  | nil => intro n _; exact ⟨rfl, rfl⟩
  | cons nb rest ih =>
    intro n hb
    by_cases h : nb = n.id ∨ nb = m.src
    · rw [broadcastLoop, if_pos h] at hb ⊢
      exact ih n hb
    · rw [broadcastLoop, if_neg h] at hb ⊢
      simp only [List.length_cons, List.map_cons] at hb ⊢
      have hmid : (n.send nb m.body).1.msg_id = n.msg_id + 1 := by
        rw [send_fst]
        exact Nat.mod_eq_of_lt (by omega)
      have hb2 : (n.send nb m.body).1.msg_id
          + (broadcastLoop m rest (n.send nb m.body).1).2.length < U128 := by
        rw [hmid]; omega
      obtain ⟨ihm, ihc⟩ := ih (n.send nb m.body).1 hb2
      constructor
      · rw [idSeq_succ, ihm, hmid, send_snd]
        simp only [Nat.mod_eq_of_lt (show n.msg_id + 1 < U128 by omega)]
      · rw [ihc, hmid]
        omega

theorem broadcast_ids (n : Node) (m : Message)
    (hb : n.msg_id + (n.broadcast m).2.length < U128) :
    (n.broadcast m).2.map (fun o => o.body.msg_id) = idSeq n.msg_id (n.broadcast m).2.length ∧
      (n.broadcast m).1.msg_id = n.msg_id + (n.broadcast m).2.length :=
  broadcastLoop_ids m n.neighbors n hb

theorem handle_ids (n : Node) (msg : Message) (n' : Node) (outs : List Message)
    (hh : handle n msg = some (n', outs)) (hb : n.msg_id + outs.length < U128) :
    outs.map (fun o => o.body.msg_id) = idSeq n.msg_id outs.length ∧
      n'.msg_id = n.msg_id + outs.length := by
  by_cases h1 : msg.body.msg_type = "init"
  · rw [handle_init n msg h1] at hh
    obtain ⟨rfl, rfl⟩ := pair_of_some hh.symm
    exact finishReply_ids _ msg _ hb
  · by_cases h2 : msg.body.msg_type = "broadcast"
    · by_cases hv : msg.body.message ∈ n.messages
      · rw [handle_broadcast_dup n msg h2 hv] at hh
        obtain ⟨rfl, rfl⟩ := pair_of_some hh.symm
        exact finishReply_ids n msg _ hb
      · rw [handle_broadcast_fresh n msg h2 hv] at hh
        obtain ⟨rfl, rfl⟩ := pair_of_some hh.symm
        rw [List.length_append] at hb
        rw [List.length_append, List.map_append]
        have hbB : ({ n with messages := msg.body.message :: n.messages } : Node).msg_id
            + (Node.broadcast { n with messages := msg.body.message :: n.messages } msg).2.length
            < U128 := by
          show n.msg_id + _ < U128
          omega
        obtain ⟨hBm, hBc⟩ := broadcast_ids { n with messages := msg.body.message :: n.messages }
          msg hbB
        have hBc' : (Node.broadcast { n with messages := msg.body.message :: n.messages } msg).1.msg_id
            = n.msg_id
              + (Node.broadcast { n with messages := msg.body.message :: n.messages } msg).2.length :=
          hBc
        have hbF : (Node.broadcast { n with messages := msg.body.message :: n.messages } msg).1.msg_id
            + (finishReply
                (Node.broadcast { n with messages := msg.body.message :: n.messages } msg).1 msg
                { MessageBody.default with msg_type := "broadcast_ok" }).2.length < U128 := by
          rw [hBc']; omega
        obtain ⟨hFm, hFc⟩ := finishReply_ids _ msg _ hbF
        refine ⟨?_, ?_⟩
        · rw [hBm, hFm, hBc', idSeq_append]
        · rw [hFc, hBc']
          omega
    · by_cases h3 : msg.body.msg_type = "read"
      · rw [handle_read n msg h3] at hh
        obtain ⟨rfl, rfl⟩ := pair_of_some hh.symm
        exact finishReply_ids n msg _ hb
      · by_cases h4 : msg.body.msg_type = "topology"
        · cases hl : topoLookup msg.body.topology n.id with
          | none => rw [handle_topology_missing n msg h4 hl] at hh; exact absurd hh (by simp)
          | some nbrs =>
            rw [handle_topology_found n msg h4 nbrs hl] at hh
            obtain ⟨rfl, rfl⟩ := pair_of_some hh.symm
            exact finishReply_ids _ msg _ hb
        · rw [handle_other n msg h1 h2 h3 h4] at hh
          obtain ⟨rfl, rfl⟩ := pair_of_some hh.symm
          exact ⟨rfl, rfl⟩

theorem run_ids (msgs : List Message) :
    ∀ (n n' : Node) (outs : List Message),
      run msgs n = some (n', outs) → n.msg_id + outs.length < U128 →
      outs.map (fun o => o.body.msg_id) = idSeq n.msg_id outs.length ∧
        n'.msg_id = n.msg_id + outs.length := by
  induction msgs with
  | nil =>
    intro n n' outs hh hb
    obtain ⟨rfl, rfl⟩ := pair_of_some hh.symm
    exact ⟨rfl, rfl⟩
  | cons m rest ih =>
    intro n n' outs hh hb
    rw [run] at hh
    cases hstep : handle n m with
    | none => rw [hstep] at hh; simp at hh
    | some p =>
      rw [hstep] at hh
      cases hrun : run rest p.1 with
      | none => simp [hrun] at hh
      | some q =>
        simp only [hrun] at hh
        obtain ⟨rfl, rfl⟩ := pair_of_some hh.symm
        rw [List.length_append] at hb
        rw [List.length_append, List.map_append]
        have hbh : n.msg_id + p.2.length < U128 := by omega
        obtain ⟨hm1, hc1⟩ := handle_ids n m p.1 p.2 (by rw [hstep]) hbh
        have hbr : p.1.msg_id + q.2.length < U128 := by rw [hc1]; omega
        obtain ⟨hm2, hc2⟩ := ih p.1 q.1 q.2 (by rw [hrun]) hbr
        refine ⟨?_, ?_⟩
        · rw [hm1, hm2, hc1, idSeq_append]
        · rw [hc2, hc1]
          omega

/-! ### State evolution of `handle` -/

theorem handle_messages (n : Node) (msg : Message) (n' : Node) (outs : List Message)
    (hh : handle n msg = some (n', outs)) :
    n'.messages =
      if msg.body.msg_type = "broadcast" then
        (if msg.body.message ∈ n.messages then n.messages
         else msg.body.message :: n.messages)
      else n.messages := by
  by_cases h1 : msg.body.msg_type = "init"
  · rw [handle_init n msg h1] at hh
    obtain ⟨rfl, rfl⟩ := pair_of_some hh.symm
    rw [if_neg (by rw [h1]; decide)]
    exact finishReply_fst_messages _ msg _
  · by_cases h2 : msg.body.msg_type = "broadcast"
    · rw [if_pos h2]
      by_cases hv : msg.body.message ∈ n.messages
      · rw [handle_broadcast_dup n msg h2 hv] at hh
        obtain ⟨rfl, rfl⟩ := pair_of_some hh.symm
        rw [if_pos hv]
        exact finishReply_fst_messages n msg _
      · rw [handle_broadcast_fresh n msg h2 hv] at hh
        obtain ⟨rfl, rfl⟩ := pair_of_some hh.symm
        rw [if_neg hv, finishReply_fst_messages, broadcast_fst_messages]
    · by_cases h3 : msg.body.msg_type = "read"
      · rw [handle_read n msg h3] at hh
        obtain ⟨rfl, rfl⟩ := pair_of_some hh.symm
        rw [if_neg h2]
        exact finishReply_fst_messages n msg _
      · by_cases h4 : msg.body.msg_type = "topology"
        · cases hl : topoLookup msg.body.topology n.id with
          | none => rw [handle_topology_missing n msg h4 hl] at hh; simp at hh
          | some nbrs =>
            rw [handle_topology_found n msg h4 nbrs hl] at hh
            obtain ⟨rfl, rfl⟩ := pair_of_some hh.symm
            rw [if_neg h2]
            exact finishReply_fst_messages _ msg _
        · rw [handle_other n msg h1 h2 h3 h4] at hh
          obtain ⟨rfl, rfl⟩ := pair_of_some hh.symm
          rw [if_neg h2]

theorem handle_id_eq (n : Node) (msg : Message) (n' : Node) (outs : List Message)
    (hh : handle n msg = some (n', outs)) :
    n'.id = if msg.body.msg_type = "init" then msg.body.node_id else n.id := by
  by_cases h1 : msg.body.msg_type = "init"
  · rw [handle_init n msg h1] at hh
    obtain ⟨rfl, rfl⟩ := pair_of_some hh.symm
    rw [if_pos h1]
    exact finishReply_fst_id _ msg _
  · by_cases h2 : msg.body.msg_type = "broadcast"
    · rw [if_neg h1]
      by_cases hv : msg.body.message ∈ n.messages
      · rw [handle_broadcast_dup n msg h2 hv] at hh
        obtain ⟨rfl, rfl⟩ := pair_of_some hh.symm
        exact finishReply_fst_id n msg _
      · rw [handle_broadcast_fresh n msg h2 hv] at hh
        obtain ⟨rfl, rfl⟩ := pair_of_some hh.symm
        rw [finishReply_fst_id, broadcast_fst_id]
    · by_cases h3 : msg.body.msg_type = "read"
      · rw [handle_read n msg h3] at hh
        obtain ⟨rfl, rfl⟩ := pair_of_some hh.symm
        rw [if_neg h1]
        exact finishReply_fst_id n msg _
      · by_cases h4 : msg.body.msg_type = "topology"
        · cases hl : topoLookup msg.body.topology n.id with
          | none => rw [handle_topology_missing n msg h4 hl] at hh; simp at hh
          | some nbrs =>
            rw [handle_topology_found n msg h4 nbrs hl] at hh
            obtain ⟨rfl, rfl⟩ := pair_of_some hh.symm
            rw [if_neg h1]
            exact finishReply_fst_id _ msg _
        · rw [handle_other n msg h1 h2 h3 h4] at hh
          obtain ⟨rfl, rfl⟩ := pair_of_some hh.symm
          rw [if_neg h1]

/-! ### Filter lemmas for counting replies and gossip -/

theorem filter_reply_one (n : Node) (msg : Message) (rb : MessageBody)
    (hM : 0 < msg.body.msg_id) :
    ((finishReply n msg rb).2.filter
        (fun o => o.body.in_reply_to == msg.body.msg_id && o.dest == msg.src)).length = 1 := by
  rw [finishReply_of_pos n msg rb hM]
  simp

theorem filter_reply_of_flood (nB : Node) (msg : Message) :
    ((nB.broadcast msg).2.filter
        (fun o => o.body.in_reply_to == msg.body.msg_id && o.dest == msg.src)) = [] := by
  rw [List.filter_eq_nil_iff]
  intro o ho
  have h := broadcast_mem nB msg o ho
  have : (o.dest == msg.src) = false := by
    rw [beq_eq_false_iff_ne]
    exact h.2.1
  simp [this]

theorem filter_gossip_reply (n : Node) (msg : Message) :
    ((finishReply n msg { MessageBody.default with msg_type := "broadcast_ok" }).2.filter
        (fun o => o.body.msg_type == "broadcast")) = [] := by
  rw [List.filter_eq_nil_iff]
  intro o ho
  have h := finishReply_mem n msg _ o ho
  have ht : o.body.msg_type = "broadcast_ok" := h.2.2.1
  rw [ht]
  decide

/-! ### A broadcast envelope is always handled without panicking -/

theorem handle_broadcast_total (n : Node) (msg : Message)
    (h : msg.body.msg_type = "broadcast") :
    ∃ n' outs, handle n msg = some (n', outs) := by
  by_cases hv : msg.body.message ∈ n.messages
  · exact ⟨_, _, handle_broadcast_dup n msg h hv⟩
  · exact ⟨_, _, handle_broadcast_fresh n msg h hv⟩

/-! ### Runs made only of broadcast envelopes -/

theorem runDup (v : Nat) (msgs : List Message) :
    ∀ n : Node,
      (∀ m ∈ msgs, m.body.msg_type = "broadcast" ∧ m.body.message = v) →
      v ∈ n.messages →
      ∃ n' outs, run msgs n = some (n', outs) ∧ n'.messages = n.messages ∧
        outs.filter (fun o => o.body.msg_type == "broadcast") = [] := by
  induction msgs with
  | nil => intro n _ _; exact ⟨n, [], rfl, rfl, rfl⟩
  | cons m rest ih =>
    intro n hall hv
    obtain ⟨hm1, hm2⟩ := hall m (List.mem_cons_self m rest)
    have hvm : m.body.message ∈ n.messages := by rw [hm2]; exact hv
    have hstep := handle_broadcast_dup n m hm1 hvm
    have hmsgs : (finishReply n m { MessageBody.default with msg_type := "broadcast_ok" }).1.messages
        = n.messages := finishReply_fst_messages n m _
    obtain ⟨n2, outs2, hrun2, hpres, hfilt⟩ :=
      ih (finishReply n m { MessageBody.default with msg_type := "broadcast_ok" }).1
        (fun x hx => hall x (List.mem_cons_of_mem m hx)) (by rw [hmsgs]; exact hv)
    refine ⟨n2, (finishReply n m { MessageBody.default with msg_type := "broadcast_ok" }).2
      ++ outs2, ?_, ?_, ?_⟩
    · simp only [run, hstep, hrun2]
    · rw [hpres, hmsgs]
    · rw [List.filter_append, hfilt, filter_gossip_reply, List.nil_append]

theorem runBroadcast (msgs : List Message) :
    ∀ n : Node,
      (∀ m ∈ msgs, m.body.msg_type = "broadcast") →
      ∃ n' outs, run msgs n = some (n', outs) ∧
        n'.messages.toFinset
          = n.messages.toFinset ∪ (msgs.map (fun m => m.body.message)).toFinset := by
  induction msgs with
  | nil => intro n _; exact ⟨n, [], rfl, by simp⟩
  | cons m rest ih =>
    intro n hall
    obtain ⟨n1, outs1, hstep⟩ :=
      handle_broadcast_total n m (hall m (List.mem_cons_self m rest))
    obtain ⟨n2, outs2, hrun2, hset⟩ := ih n1 (fun x hx => hall x (List.mem_cons_of_mem m hx))
    refine ⟨n2, outs1 ++ outs2, ?_, ?_⟩
    · simp only [run, hstep, hrun2]
    · rw [hset]
      have h1 : n1.messages.toFinset = insert m.body.message n.messages.toFinset := by
        rw [handle_messages n m n1 outs1 hstep,
          if_pos (hall m (List.mem_cons_self m rest))]
        by_cases hv : m.body.message ∈ n.messages
        · rw [if_pos hv, Finset.insert_eq_self.mpr (List.mem_toFinset.mpr hv)]
        · rw [if_neg hv, List.toFinset_cons]
      rw [h1, List.map_cons, List.toFinset_cons, Finset.insert_union, Finset.union_insert]

/-! ### Claims -/

/-- C1 (amended): for every inbound envelope with `msg_id` = M > 0 whose type is one
of the reply-producing kinds (`init`, `broadcast`, `read`, or `topology` that does
not panic), handling emits exactly one outbound envelope with `in_reply_to` = M
destined to the inbound envelope's `src`.  (The claim as frozen fails for
`broadcast_ok` and unrecognized types, whose branches `continue` without a reply;
see the counterexample.) -/
theorem replyCorrelation (n : Node) (msg : Message) (n' : Node) (outs : List Message)
    (hh : handle n msg = some (n', outs)) (hM : 0 < msg.body.msg_id)
    (ht : msg.body.msg_type = "init" ∨ msg.body.msg_type = "broadcast" ∨
      msg.body.msg_type = "read" ∨ msg.body.msg_type = "topology") :
    (outs.filter
        (fun o => o.body.in_reply_to == msg.body.msg_id && o.dest == msg.src)).length = 1 := by
  rcases ht with h | h | h | h
  · rw [handle_init n msg h] at hh
    obtain ⟨rfl, rfl⟩ := pair_of_some hh.symm
    exact filter_reply_one _ msg _ hM
  · by_cases hv : msg.body.message ∈ n.messages
    · rw [handle_broadcast_dup n msg h hv] at hh
      obtain ⟨rfl, rfl⟩ := pair_of_some hh.symm
      exact filter_reply_one n msg _ hM
    · rw [handle_broadcast_fresh n msg h hv] at hh
      obtain ⟨rfl, rfl⟩ := pair_of_some hh.symm
      rw [List.filter_append, filter_reply_of_flood, List.nil_append]
      exact filter_reply_one _ msg _ hM
  · rw [handle_read n msg h] at hh
    obtain ⟨rfl, rfl⟩ := pair_of_some hh.symm
    exact filter_reply_one n msg _ hM
  · cases hl : topoLookup msg.body.topology n.id with
    | none => rw [handle_topology_missing n msg h hl] at hh; simp at hh
    | some nbrs =>
      rw [handle_topology_found n msg h nbrs hl] at hh
      obtain ⟨rfl, rfl⟩ := pair_of_some hh.symm
      exact filter_reply_one _ msg _ hM

/-- C1 counterexample: an inbound `broadcast_ok` envelope with `msg_id` = 5 > 0 is
handled (the loop `continue`s) yet emits zero correlated outbound envelopes, not
exactly one. -/
theorem replyCorrelationCex :
    0 < ackMsg.body.msg_id ∧
    Option.map
        (fun r => (r.2.filter
          (fun o => o.body.in_reply_to == ackMsg.body.msg_id && o.dest == ackMsg.src)).length)
        (handle nodeInit ackMsg) = some 0 := by
  constructor
  · decide
  · decide

/-- Witness for the amended C1 theorem at Scenario B's broadcast. -/
theorem replyCorrelationWitness :
    handle nodeB bcastMsg = some (nodeAfterB, outsAfterB) ∧ 0 < bcastMsg.body.msg_id ∧
    bcastMsg.body.msg_type = "broadcast" ∧
    (outsAfterB.filter
        (fun o => o.body.in_reply_to == bcastMsg.body.msg_id && o.dest == bcastMsg.src)).length
      = 1 :=
  ⟨by decide, by decide, by decide,
    replyCorrelation nodeB bcastMsg nodeAfterB outsAfterB (by decide) (by decide)
      (Or.inr (Or.inl (by decide)))⟩

/-- C2: the spec requires a topology map missing this node's id not to crash the
node, but the code indexes the `HashMap` unguarded (`body.topology[&node.id]`) and
panics; evaluated at Scenario E's input, the handler reaches the panic (modeled as
`none`), so no later `read`/`broadcast` envelope is handled. -/
theorem topologyMissingPanics : handle nodeInit topoMissingMsg = none := by decide

/-- C3: idempotence of repeated broadcasts of one value `v` from a node that has
not seen `v`: the first occurrence performs the (single) flood fan-out, every
later delivery of `v` emits no gossip at all, and `seenValues` ends as exactly one
insertion of `v`, however many duplicates arrive. -/
theorem broadcastIdempotent (n : Node) (v : Nat) (first : Message) (rest : List Message)
    (hf1 : first.body.msg_type = "broadcast") (hf2 : first.body.message = v)
    (hrest : ∀ m ∈ rest, m.body.msg_type = "broadcast" ∧ m.body.message = v)
    (h0 : v ∉ n.messages) :
    ∃ n1 outs1 n2 outs2,
      handle n first = some (n1, outs1) ∧
      outs1.filter (fun o => o.body.msg_type == "broadcast")
        = (Node.broadcast { n with messages := v :: n.messages } first).2 ∧
      run rest n1 = some (n2, outs2) ∧
      outs2.filter (fun o => o.body.msg_type == "broadcast") = [] ∧
      n2.messages = v :: n.messages := by
  subst hf2
  have hstep := handle_broadcast_fresh n first hf1 h0
  have hmsgs1 : (finishReply
      (Node.broadcast { n with messages := first.body.message :: n.messages } first).1 first
      { MessageBody.default with msg_type := "broadcast_ok" }).1.messages
      = first.body.message :: n.messages := by
    rw [finishReply_fst_messages, broadcast_fst_messages]
  obtain ⟨n2, outs2, hrun2, hpres, hfilt⟩ := runDup first.body.message rest
    (finishReply
      (Node.broadcast { n with messages := first.body.message :: n.messages } first).1 first
      { MessageBody.default with msg_type := "broadcast_ok" }).1
    hrest (by rw [hmsgs1]; exact List.mem_cons_self _ _)
  refine ⟨_, _, n2, outs2, hstep, ?_, hrun2, hfilt, by rw [hpres, hmsgs1]⟩
  rw [List.filter_append, filter_gossip_reply, List.append_nil]
  apply List.filter_eq_self.mpr
  intro o ho
  have h := (broadcast_mem _ first o ho).2.2.2.1
  rw [h, hf1]
  decide

/-- Witness for C3: value 42 delivered twice to `nodeB`. -/
theorem broadcastIdempotentWitness :
    bcastMsg.body.msg_type = "broadcast" ∧ bcastMsg.body.message = 42 ∧
    (∀ m ∈ [bcastMsg], m.body.msg_type = "broadcast" ∧ m.body.message = 42) ∧
    42 ∉ nodeB.messages ∧
    (∃ n1 outs1 n2 outs2,
      handle nodeB bcastMsg = some (n1, outs1) ∧
      outs1.filter (fun o => o.body.msg_type == "broadcast")
        = (Node.broadcast { nodeB with messages := 42 :: nodeB.messages } bcastMsg).2 ∧
      run [bcastMsg] n1 = some (n2, outs2) ∧
      outs2.filter (fun o => o.body.msg_type == "broadcast") = [] ∧
      n2.messages = 42 :: nodeB.messages) :=
  ⟨by decide, by decide, by decide, by decide,
    broadcastIdempotent nodeB 42 bcastMsg [bcastMsg] (by decide) (by decide) (by decide)
      (by decide)⟩

/-- C4: while handling an inbound broadcast envelope, no flooded gossip envelope
is destined to the node's own id, and none is destined to that envelope's
immediate sender. -/
theorem noSelfLoop (n : Node) (msg : Message) (n' : Node) (outs : List Message)
    (hh : handle n msg = some (n', outs)) (hb : msg.body.msg_type = "broadcast") :
    ∀ o ∈ outs, o.body.msg_type = "broadcast" → o.dest ≠ n.id ∧ o.dest ≠ msg.src := by
  by_cases hv : msg.body.message ∈ n.messages
  · rw [handle_broadcast_dup n msg hb hv] at hh
    obtain ⟨rfl, rfl⟩ := pair_of_some hh.symm
    intro o ho hg
    have h := finishReply_mem n msg _ o ho
    have hok : o.body.msg_type = "broadcast_ok" := h.2.2.1
    rw [hok] at hg
    exact absurd hg (by decide)
  · rw [handle_broadcast_fresh n msg hb hv] at hh
    obtain ⟨rfl, rfl⟩ := pair_of_some hh.symm
    intro o ho hg
    rw [List.mem_append] at ho
    rcases ho with ho | ho
    · have h := broadcast_mem _ msg o ho
      exact ⟨h.1, h.2.1⟩
    · have h := finishReply_mem _ msg _ o ho
      have hok : o.body.msg_type = "broadcast_ok" := h.2.2.1
      rw [hok] at hg
      exact absurd hg (by decide)

/-- Witness for C4 at Scenario B. -/
theorem noSelfLoopWitness :
    handle nodeB bcastMsg = some (nodeAfterB, outsAfterB) ∧
    bcastMsg.body.msg_type = "broadcast" ∧
    (∀ o ∈ outsAfterB,
      o.body.msg_type = "broadcast" → o.dest ≠ nodeB.id ∧ o.dest ≠ bcastMsg.src) :=
  ⟨by decide, by decide, noSelfLoop nodeB bcastMsg nodeAfterB outsAfterB (by decide) (by decide)⟩

/-- C5: after any sequence of broadcast envelopes delivered to a node with empty
`seenValues` (duplicates and order arbitrary), a `read` request returns one
`read_ok` reply whose `messages` list, viewed as a set, is exactly the set of
distinct broadcast values. -/
theorem readAfterBroadcasts (n : Node) (msgs : List Message) (readM : Message)
    (n1 : Node) (outs1 : List Message)
    (hmsgs : ∀ m ∈ msgs, m.body.msg_type = "broadcast")
    (h0 : n.messages = [])
    (hread : readM.body.msg_type = "read") (hridPos : 0 < readM.body.msg_id)
    (hrun : run msgs n = some (n1, outs1)) :
    ∃ n2 r, handle n1 readM = some (n2, [r]) ∧ r.body.msg_type = "read_ok" ∧
      (∃ l, r.body.messages = some l ∧
        l.toFinset = (msgs.map (fun m => m.body.message)).toFinset) := by
  obtain ⟨na, outsa, hra, hset⟩ := runBroadcast msgs n hmsgs
  rw [hrun] at hra
  have hmsg_eq : n1.messages = na.messages := by
    rw [(pair_of_some hra).1]
  have hset1 : n1.messages.toFinset = (msgs.map (fun m => m.body.message)).toFinset := by
    rw [hmsg_eq, hset, h0]
    simp
  have hh := handle_read n1 readM hread
  rw [finishReply_of_pos _ readM _ hridPos] at hh
  exact ⟨_, _, hh, rfl, n1.messages, rfl, hset1⟩

/-- Witness for C5: value 42 broadcast twice, then read. -/
theorem readAfterBroadcastsWitness :
    (∀ m ∈ [bcastMsg, bcastMsg], m.body.msg_type = "broadcast") ∧
    nodeB.messages = [] ∧ readMsg9.body.msg_type = "read" ∧ 0 < readMsg9.body.msg_id ∧
    run [bcastMsg, bcastMsg] nodeB = some (nodeAfterB2, outsAfterB2) ∧
    (∃ n2 r, handle nodeAfterB2 readMsg9 = some (n2, [r]) ∧ r.body.msg_type = "read_ok" ∧
      (∃ l, r.body.messages = some l ∧
        l.toFinset = ([bcastMsg, bcastMsg].map (fun m => m.body.message)).toFinset)) :=
  ⟨by decide, by decide, by decide, by decide, by decide,
    readAfterBroadcasts nodeB [bcastMsg, bcastMsg] readMsg9 nodeAfterB2 outsAfterB2
      (by decide) (by decide) (by decide) (by decide) (by decide)⟩

/-- C6 counterexample: at Scenario B the flooded gossip envelope to `n2` carries
`msg_id` = 1 — the freshly bumped counter — and not 0 as the claim states. -/
theorem gossipZeroIdCex :
    Option.map (fun r => r.2.map (fun o => (o.body.msg_type, o.body.msg_id)))
        (handle nodeB bcastMsg)
      = some [("broadcast", 1), ("broadcast_ok", 2)] := by decide

/-- C6 (amended): every outbound envelope — flooded gossip included — is stamped
with a freshly allocated `msg_id` strictly greater than the node's counter before
handling, hence positive and never 0 (absent u128 wraparound). -/
theorem gossipFreshId (n : Node) (msg : Message) (n' : Node) (outs : List Message)
    (hh : handle n msg = some (n', outs)) (hb : n.msg_id + outs.length < U128) :
    ∀ o ∈ outs, n.msg_id < o.body.msg_id ∧ 0 < o.body.msg_id := by
  obtain ⟨hm, _⟩ := handle_ids n msg n' outs hh hb
  intro o ho
  have hmem : o.body.msg_id ∈ outs.map (fun o => o.body.msg_id) :=
    List.mem_map_of_mem _ ho
  rw [hm, mem_idSeq] at hmem
  omega

/-- Witness for the amended C6 theorem at Scenario B. -/
theorem gossipFreshIdWitness :
    handle nodeB bcastMsg = some (nodeAfterB, outsAfterB) ∧
    nodeB.msg_id + outsAfterB.length < U128 ∧
    (∀ o ∈ outsAfterB, nodeB.msg_id < o.body.msg_id ∧ 0 < o.body.msg_id) :=
  ⟨by decide, by decide,
    gossipFreshId nodeB bcastMsg nodeAfterB outsAfterB (by decide) (by decide)⟩

/-- C7: starting from a zero counter, across a whole run the outbound envelopes
are stamped 1, 2, …, k in emission order — the counter is bumped exactly once per
outbound envelope, ends equal to the number of envelopes sent, and the stamped
ids are strictly increasing, never reused (absent u128 wraparound). -/
theorem msgIdCounter (n : Node) (msgs : List Message) (n' : Node) (outs : List Message)
    (hrun : run msgs n = some (n', outs)) (h0 : n.msg_id = 0) (hb : outs.length < U128) :
    outs.map (fun o => o.body.msg_id) = idSeq 0 outs.length ∧
      n'.msg_id = outs.length ∧
      List.Pairwise (· < ·) (outs.map (fun o => o.body.msg_id)) := by
  have hb' : n.msg_id + outs.length < U128 := by
    rw [h0, Nat.zero_add]
    exact hb
  obtain ⟨hm, hc⟩ := run_ids msgs n n' outs hrun hb'
  rw [h0] at hm hc
  refine ⟨hm, by rw [hc, Nat.zero_add], ?_⟩
  rw [hm]
  exact idSeq_pairwise outs.length 0

/-- Witness for C7: an init followed by a read from a fresh node. -/
theorem msgIdCounterWitness :
    run [initMsg1, readMsg9] Node.new = some (nodeAfterIR, outsAfterIR) ∧
    Node.new.msg_id = 0 ∧ outsAfterIR.length < U128 ∧
    (outsAfterIR.map (fun o => o.body.msg_id) = idSeq 0 outsAfterIR.length ∧
      nodeAfterIR.msg_id = outsAfterIR.length ∧
      List.Pairwise (· < ·) (outsAfterIR.map (fun o => o.body.msg_id))) :=
  ⟨by decide, by decide, by decide,
    msgIdCounter Node.new [initMsg1, readMsg9] nodeAfterIR outsAfterIR (by decide) (by decide)
      (by decide)⟩

/-- C8 counterexample: the id is "n1" after the first init but a second init
overwrites it to "n2" — the id does change after an init has been processed. -/
theorem idImmutableCex :
    Option.map (fun r => r.1.id) (run [initMsg1] Node.new) = some "n1" ∧
    Option.map (fun r => r.1.id) (run [initMsg1, initMsg2] Node.new) = some "n2" ∧
    "n1" ≠ "n2" :=
  ⟨by decide, by decide, by decide⟩

/-- C8 (amended): the id is empty until the first init envelope is processed, and
only init envelopes touch it: handling any envelope leaves the id unchanged unless
the envelope is an init, in which case the id becomes that envelope's `node_id`
(so a later init can overwrite it). -/
theorem idUpdates (n : Node) (msg : Message) (n' : Node) (outs : List Message)
    (hh : handle n msg = some (n', outs)) :
    n'.id = if msg.body.msg_type = "init" then msg.body.node_id else n.id :=
  handle_id_eq n msg n' outs hh

/-- Witness for the amended C8 theorem: the first init sets the id. -/
theorem idUpdatesWitness :
    handle Node.new initMsg1 = some (nodeAfterInit, outsAfterInit) ∧
    nodeAfterInit.id
      = (if initMsg1.body.msg_type = "init" then initMsg1.body.node_id else Node.new.id) :=
  ⟨by decide, idUpdates Node.new initMsg1 nodeAfterInit outsAfterInit (by decide)⟩

/-- C9: an inbound envelope with `msg_id` = 0 produces no reply: no outbound
envelope is destined to the inbound sender with `in_reply_to` equal to the inbound
`msg_id` (the gossip a fire-and-forget broadcast may still trigger never targets
the sender). -/
theorem fireAndForgetNoReply (n : Node) (msg : Message) (n' : Node) (outs : List Message)
    (hh : handle n msg = some (n', outs)) (h0 : msg.body.msg_id = 0) :
    ∀ o ∈ outs, ¬(o.dest = msg.src ∧ o.body.in_reply_to = msg.body.msg_id) := by
  by_cases h1 : msg.body.msg_type = "init"
  · rw [handle_init n msg h1] at hh
    simp only [finishReply_of_zero _ msg _ h0] at hh
    obtain ⟨rfl, rfl⟩ := pair_of_some hh
    intro o ho
    simp at ho
  · by_cases h2 : msg.body.msg_type = "broadcast"
    · by_cases hv : msg.body.message ∈ n.messages
      · rw [handle_broadcast_dup n msg h2 hv] at hh
        simp only [finishReply_of_zero _ msg _ h0] at hh
        obtain ⟨rfl, rfl⟩ := pair_of_some hh
        intro o ho
        simp at ho
      · rw [handle_broadcast_fresh n msg h2 hv] at hh
        simp only [finishReply_of_zero _ msg _ h0, List.append_nil] at hh
        obtain ⟨rfl, rfl⟩ := pair_of_some hh
        intro o ho hcontra
        exact (broadcast_mem _ msg o ho).2.1 hcontra.1
    · by_cases h3 : msg.body.msg_type = "read"
      · rw [handle_read n msg h3] at hh
        simp only [finishReply_of_zero _ msg _ h0] at hh
        obtain ⟨rfl, rfl⟩ := pair_of_some hh
        intro o ho
        simp at ho
      · by_cases h4 : msg.body.msg_type = "topology"
        · cases hl : topoLookup msg.body.topology n.id with
          | none => rw [handle_topology_missing n msg h4 hl] at hh; simp at hh
          | some nbrs =>
            rw [handle_topology_found n msg h4 nbrs hl] at hh
            simp only [finishReply_of_zero _ msg _ h0] at hh
            obtain ⟨rfl, rfl⟩ := pair_of_some hh
            intro o ho
            simp at ho
        · rw [handle_other n msg h1 h2 h3 h4] at hh
          obtain ⟨rfl, rfl⟩ := pair_of_some hh.symm
          intro o ho
          simp at ho

/-- Witness for C9: a fire-and-forget broadcast that still floods gossip. -/
theorem fireAndForgetNoReplyWitness :
    handle nodeB fireMsg = some (nodeAfterFire, outsAfterFire) ∧ fireMsg.body.msg_id = 0 ∧
    (∀ o ∈ outsAfterFire,
      ¬(o.dest = fireMsg.src ∧ o.body.in_reply_to = fireMsg.body.msg_id)) :=
  ⟨by decide, by decide,
    fireAndForgetNoReply nodeB fireMsg nodeAfterFire outsAfterFire (by decide) (by decide)⟩

/-- C10: a broadcast whose wire body omits `message` deserializes with the value
defaulted to 0, the node inserts 0 into `seenValues`, a later `read_ok` reply
lists 0, and every flooded gossip envelope for that broadcast serializes with the
`message` field omitted again (`is_zero` skips it). -/
theorem defaultedMessageZero (n : Node) (w : WireBody) (src dest : String)
    (n1 : Node) (outs : List Message) (readM : Message) (n2 : Node) (outs2 : List Message)
    (ht : w.msg_type = "broadcast") (hm : w.message = none)
    (hh : handle n { src := src, dest := dest, body := deserializeBody w } = some (n1, outs))
    (hread : readM.body.msg_type = "read") (hrid : 0 < readM.body.msg_id)
    (hh2 : handle n1 readM = some (n2, outs2)) :
    0 ∈ n1.messages ∧
      (∀ o ∈ outs, o.body.msg_type = "broadcast" → serializeMessageField o.body = none) ∧
      (∃ r, outs2 = [r] ∧ r.body.msg_type = "read_ok" ∧
        ∃ l, r.body.messages = some l ∧ 0 ∈ l) := by
  have htype : ({ src := src, dest := dest, body := deserializeBody w } : Message).body.msg_type
      = "broadcast" := ht
  have hmsg0 : ({ src := src, dest := dest, body := deserializeBody w } : Message).body.message
      = 0 := by
    show w.message.getD 0 = 0
    rw [hm]
    rfl
  have hmem : 0 ∈ n1.messages := by
    have h := handle_messages n _ n1 outs hh
    rw [if_pos htype, hmsg0] at h
    by_cases hv : 0 ∈ n.messages
    · rw [if_pos hv] at h
      rw [h]
      exact hv
    · rw [if_neg hv] at h
      rw [h]
      exact List.mem_cons_self 0 _
  refine ⟨hmem, ?_, ?_⟩
  · by_cases hv : ({ src := src, dest := dest, body := deserializeBody w } : Message).body.message
        ∈ n.messages
    · rw [handle_broadcast_dup n _ htype hv] at hh
      obtain ⟨rfl, rfl⟩ := pair_of_some hh.symm
      intro o ho hg
      have hok := (finishReply_mem n _ _ o ho).2.2.1
      rw [hok] at hg
      exact absurd hg (by decide)
    · rw [handle_broadcast_fresh n _ htype hv] at hh
      obtain ⟨rfl, rfl⟩ := pair_of_some hh.symm
      intro o ho hg
      rw [List.mem_append] at ho
      rcases ho with ho | ho
      · have hval := (broadcast_mem _ _ o ho).2.2.2.2.2
        rw [hmsg0] at hval
        simp [serializeMessageField, is_zero, hval]
      · have hok := (finishReply_mem _ _ _ o ho).2.2.1
        rw [hok] at hg
        exact absurd hg (by decide)
  · have hhread := handle_read n1 readM hread
    rw [finishReply_of_pos _ readM _ hrid] at hhread
    rw [hh2] at hhread
    have hpair := pair_of_some hhread
    exact ⟨_, hpair.2.symm, rfl, n1.messages, rfl, hmem⟩

/-- Witness for C10 at a concrete wire body with no `message` field. -/
theorem defaultedMessageZeroWitness :
    wireNoMessage.msg_type = "broadcast" ∧ wireNoMessage.message = none ∧
    handle nodeB { src := "c1", dest := "n1", body := deserializeBody wireNoMessage }
      = some (nodeAfterWire, outsAfterWire) ∧
    readMsg9.body.msg_type = "read" ∧ 0 < readMsg9.body.msg_id ∧
    handle nodeAfterWire readMsg9 = some (nodeAfterWireRead, outsAfterWireRead) ∧
    (0 ∈ nodeAfterWire.messages ∧
      (∀ o ∈ outsAfterWire,
        o.body.msg_type = "broadcast" → serializeMessageField o.body = none) ∧
      (∃ r, outsAfterWireRead = [r] ∧ r.body.msg_type = "read_ok" ∧
        ∃ l, r.body.messages = some l ∧ 0 ∈ l)) :=
  ⟨by decide, by decide, by decide, by decide, by decide, by decide,
    defaultedMessageZero nodeB wireNoMessage "c1" "n1" nodeAfterWire outsAfterWire readMsg9
      nodeAfterWireRead outsAfterWireRead (by decide) (by decide) (by decide) (by decide)
      (by decide) (by decide)⟩

end Maelstrom

